import Mathlib

/-!
# Verification of the fjcpc-classroom-broadcast session/protocol engine

Shallow embedding, in Lean 4, of the parts of the repository that the
frozen claims are about:

* the message taxonomy (`src/shared/src/message.rs`) and its serde_json
  wire representation, modelled at the level of JSON documents;
* the length-prefixed framing codec (`src/shared/src/net.rs`);
* filename sanitisation (`src/shared/src/util.rs`);
* the teacher's registry fan-out, per-connection message handler and
  file-upload session table (`src/teacher/src/server.rs`);
* the student's file-download session table (`src/student/src/files.rs`);
* the file-sending chunk walk (`send_file_to_all` / `upload_file`);
* the broadcast start/stop control paths and the capture-loop spawn
  ordering (`src/teacher/src/server.rs`, `src/teacher/src/screen.rs`),
  modelled as event traces with an explicit interleaving relation for
  the concurrently running capture task.

Machine integers (`u64`, `u32`, `u8`) are modelled as `Nat`: none of the
modelled code paths perform arithmetic that can overflow (counters and
byte sizes only ever grow by small increments far below `2^64`; the one
`as u32` cast in `write_message` is applied to a length already checked
to be at most 32 MiB).  `Uuid` values are opaque identifiers compared
for equality only; they are modelled as `String` (their serde_json wire
form is the hyphenated string).  File-system and socket I/O is modelled
by explicit byte lists; fallible operations return `Option`/`Except`.
-/

namespace Broadcast

/-- Rust `Uuid` (an opaque 128-bit id; serde_json form is a string). -/
abbrev Uuid := String

/-- `BroadcastMode` from `src/shared/src/message.rs`. -/
inductive BroadcastMode
  | fullscreen
  | window
deriving DecidableEq, Repr

/-- `BroadcastSource` from `src/shared/src/message.rs`. -/
inductive BroadcastSource
  | teacher
  | student (student_id : String) (student_name : Option String)
deriving DecidableEq, Repr

/-- `VideoCodec` from `src/shared/src/message.rs`. -/
inductive VideoCodec
  | jpeg
  | bgra
deriving DecidableEq, Repr

/-- `VideoFrame` from `src/shared/src/message.rs`. -/
structure VideoFrame where
  frame_id : Nat
  timestamp_ms : Nat
  source : BroadcastSource
  codec : VideoCodec
  width : Nat
  height : Nat
  fullscreen : Bool
  data : List Nat
deriving DecidableEq, Repr

/-- `AudioFrame` from `src/shared/src/message.rs`. -/
structure AudioFrame where
  frame_id : Nat
  timestamp_ms : Nat
  sample_rate : Nat
  channels : Nat
  force_play : Bool
  data : List Nat
deriving DecidableEq, Repr

/-- `FileOffer` from `src/shared/src/message.rs`. -/
structure FileOffer where
  transfer_id : Uuid
  file_name : String
  total_size : Nat
  auto_open : Bool
deriving DecidableEq, Repr

/-- `FileChunk` from `src/shared/src/message.rs`. -/
structure FileChunk where
  transfer_id : Uuid
  offset : Nat
  bytes : List Nat
  final_chunk : Bool
deriving DecidableEq, Repr

/-- `FileTransferComplete` from `src/shared/src/message.rs`. -/
structure FileTransferComplete where
  transfer_id : Uuid
  success : Bool
  message : Option String
deriving DecidableEq, Repr

/-- `StudentCapabilities` from `src/shared/src/message.rs`. -/
structure StudentCapabilities where
  receive_video : Bool
  send_video : Bool
  receive_audio : Bool
  send_audio : Bool
  file_transfer : Bool
deriving DecidableEq, Repr

/-- `HelloMessage` from `src/shared/src/message.rs`. -/
structure HelloMessage where
  student_id : String
  student_name : String
  client_version : String
  capabilities : StudentCapabilities
deriving DecidableEq, Repr

/-- `HelloAck` from `src/shared/src/message.rs`. -/
structure HelloAck where
  server_version : String
  force_fullscreen : Bool
  broadcast_mode : BroadcastMode
deriving DecidableEq, Repr

/-- `Heartbeat` from `src/shared/src/message.rs`. -/
structure Heartbeat where
  timestamp_ms : Nat
deriving DecidableEq, Repr

/-- `BroadcastCommand` from `src/shared/src/message.rs`. -/
inductive BroadcastCommand
  | start (source : BroadcastSource) (mode : BroadcastMode)
  | stop
  | requestStudentShare (student_id : String)
deriving DecidableEq, Repr

/-- `TeacherToStudent` from `src/shared/src/message.rs`. -/
inductive TeacherToStudent
  | welcome (ack : HelloAck)
  | broadcast (cmd : BroadcastCommand)
  | video (frame : VideoFrame)
  | audio (frame : AudioFrame)
  | fileOffer (offer : FileOffer)
  | fileChunk (chunk : FileChunk)
  | fileComplete (done : FileTransferComplete)
  | heartbeat (hb : Heartbeat)
  | error (msg : String)
deriving DecidableEq, Repr

/-- `StudentToTeacher` from `src/shared/src/message.rs`. -/
inductive StudentToTeacher
  | hello (msg : HelloMessage)
  | heartbeat (hb : Heartbeat)
  | ack (msg : String)
  | video (frame : VideoFrame)
  | audio (frame : AudioFrame)
  | fileOffer (offer : FileOffer)
  | fileChunk (chunk : FileChunk)
  | fileComplete (done : FileTransferComplete)
  | error (msg : String)
deriving DecidableEq, Repr

/-!
## JSON wire representation (`serde_json`, `src/shared/src/net.rs` payloads)

`write_message` serialises messages with `serde_json::to_vec` and
`read_message` parses with `serde_json::from_slice`.  We model the wire
representation at the level of JSON documents: `encode*` mirrors the
serde derive attributes on each type (`rename_all = "snake_case"`,
adjacent tagging `tag = "type", content = "payload"` on the two message
enums and on `BroadcastSource`, internal tagging `tag = "action"` on
`BroadcastCommand`, field order as declared), and `decode*` parses the
emitted document shape back.  The textual JSON layer (printing a
document to bytes and parsing it back) is serde_json's, outside this
repository, and is assumed faithful.
-/

/-- JSON documents.  All numeric fields of the taxonomy are unsigned
integers, so `num` carries a `Nat`. -/
inductive Json
  | null
  | bool (b : Bool)
  | num (n : Nat)
  | str (s : String)
  | arr (elems : List Json)
  | obj (fields : List (String × Json))

/-- serde form of `Option<String>`: `null` or a string. -/
def encodeOptStr : Option String → Json
  | none => .null
  | some s => .str s

def decodeOptStr : Json → Option (Option String)
  | .null => some none
  | .str s => some (some s)
  | _ => none

def encodeBroadcastMode : BroadcastMode → Json
  | .fullscreen => .str "fullscreen"
  | .window => .str "window"

def decodeBroadcastMode : Json → Option BroadcastMode
  | .str "fullscreen" => some .fullscreen
  | .str "window" => some .window
  | _ => none

def encodeVideoCodec : VideoCodec → Json
  | .jpeg => .str "jpeg"
  | .bgra => .str "bgra"

def decodeVideoCodec : Json → Option VideoCodec
  | .str "jpeg" => some .jpeg
  | .str "bgra" => some .bgra
  | _ => none

def encodeBroadcastSource : BroadcastSource → Json
  | .teacher => .obj [("type", .str "teacher")]
  | .student sid sname =>
      .obj [("type", .str "student"),
            ("payload", .obj [("student_id", .str sid),
                              ("student_name", encodeOptStr sname)])]

def decodeBroadcastSource : Json → Option BroadcastSource
  | .obj [("type", .str "teacher")] => some .teacher
  | .obj [("type", .str "student"),
          ("payload", .obj [("student_id", .str sid), ("student_name", sn)])] =>
      (decodeOptStr sn).map (fun n => .student sid n)
  | _ => none

/-- serde form of `Vec<u8>`: an array of numbers. -/
def encodeBytes (bs : List Nat) : Json :=
  .arr (bs.map .num)

def decodeBytesList : List Json → Option (List Nat)
  | [] => some []
  | .num n :: rest => (decodeBytesList rest).map (n :: ·)
  | _ => none

def decodeBytes : Json → Option (List Nat)
  | .arr elems => decodeBytesList elems
  | _ => none

def encodeVideoFrame (f : VideoFrame) : Json :=
  .obj [("frame_id", .num f.frame_id),
        ("timestamp_ms", .num f.timestamp_ms),
        ("source", encodeBroadcastSource f.source),
        ("codec", encodeVideoCodec f.codec),
        ("width", .num f.width),
        ("height", .num f.height),
        ("fullscreen", .bool f.fullscreen),
        ("data", encodeBytes f.data)]

def decodeVideoFrame : Json → Option VideoFrame
  | .obj [("frame_id", .num fid),
          ("timestamp_ms", .num ts),
          ("source", src),
          ("codec", cdc),
          ("width", .num w),
          ("height", .num h),
          ("fullscreen", .bool fs),
          ("data", d)] => do
      let src ← decodeBroadcastSource src
      let cdc ← decodeVideoCodec cdc
      let d ← decodeBytes d
      some ⟨fid, ts, src, cdc, w, h, fs, d⟩
  | _ => none

def encodeAudioFrame (f : AudioFrame) : Json :=
  .obj [("frame_id", .num f.frame_id),
        ("timestamp_ms", .num f.timestamp_ms),
        ("sample_rate", .num f.sample_rate),
        ("channels", .num f.channels),
        ("force_play", .bool f.force_play),
        ("data", encodeBytes f.data)]

def decodeAudioFrame : Json → Option AudioFrame
  | .obj [("frame_id", .num fid),
          ("timestamp_ms", .num ts),
          ("sample_rate", .num sr),
          ("channels", .num ch),
          ("force_play", .bool fp),
          ("data", d)] => do
      let d ← decodeBytes d
      some ⟨fid, ts, sr, ch, fp, d⟩
  | _ => none

def encodeFileOffer (o : FileOffer) : Json :=
  .obj [("transfer_id", .str o.transfer_id),
        ("file_name", .str o.file_name),
        ("total_size", .num o.total_size),
        ("auto_open", .bool o.auto_open)]

def decodeFileOffer : Json → Option FileOffer
  | .obj [("transfer_id", .str tid),
          ("file_name", .str fname),
          ("total_size", .num sz),
          ("auto_open", .bool ao)] => some ⟨tid, fname, sz, ao⟩
  | _ => none

def encodeFileChunk (c : FileChunk) : Json :=
  .obj [("transfer_id", .str c.transfer_id),
        ("offset", .num c.offset),
        ("bytes", encodeBytes c.bytes),
        ("final_chunk", .bool c.final_chunk)]

def decodeFileChunk : Json → Option FileChunk
  | .obj [("transfer_id", .str tid),
          ("offset", .num off),
          ("bytes", bs),
          ("final_chunk", .bool fc)] => do
      let bs ← decodeBytes bs
      some ⟨tid, off, bs, fc⟩
  | _ => none

def encodeFileTransferComplete (d : FileTransferComplete) : Json :=
  .obj [("transfer_id", .str d.transfer_id),
        ("success", .bool d.success),
        ("message", encodeOptStr d.message)]

def decodeFileTransferComplete : Json → Option FileTransferComplete
  | .obj [("transfer_id", .str tid),
          ("success", .bool ok),
          ("message", m)] => do
      let m ← decodeOptStr m
      some ⟨tid, ok, m⟩
  | _ => none

def encodeStudentCapabilities (c : StudentCapabilities) : Json :=
  .obj [("receive_video", .bool c.receive_video),
        ("send_video", .bool c.send_video),
        ("receive_audio", .bool c.receive_audio),
        ("send_audio", .bool c.send_audio),
        ("file_transfer", .bool c.file_transfer)]

def decodeStudentCapabilities : Json → Option StudentCapabilities
  | .obj [("receive_video", .bool rv),
          ("send_video", .bool sv),
          ("receive_audio", .bool ra),
          ("send_audio", .bool sa),
          ("file_transfer", .bool ft)] => some ⟨rv, sv, ra, sa, ft⟩
  | _ => none

def encodeHelloMessage (h : HelloMessage) : Json :=
  .obj [("student_id", .str h.student_id),
        ("student_name", .str h.student_name),
        ("client_version", .str h.client_version),
        ("capabilities", encodeStudentCapabilities h.capabilities)]

def decodeHelloMessage : Json → Option HelloMessage
  | .obj [("student_id", .str sid),
          ("student_name", .str sname),
          ("client_version", .str cv),
          ("capabilities", caps)] => do
      let caps ← decodeStudentCapabilities caps
      some ⟨sid, sname, cv, caps⟩
  | _ => none

def encodeHelloAck (a : HelloAck) : Json :=
  .obj [("server_version", .str a.server_version),
        ("force_fullscreen", .bool a.force_fullscreen),
        ("broadcast_mode", encodeBroadcastMode a.broadcast_mode)]

def decodeHelloAck : Json → Option HelloAck
  | .obj [("server_version", .str sv),
          ("force_fullscreen", .bool ff),
          ("broadcast_mode", bm)] => do
      let bm ← decodeBroadcastMode bm
      some ⟨sv, ff, bm⟩
  | _ => none

def encodeHeartbeat (h : Heartbeat) : Json :=
  .obj [("timestamp_ms", .num h.timestamp_ms)]

def decodeHeartbeat : Json → Option Heartbeat
  | .obj [("timestamp_ms", .num ts)] => some ⟨ts⟩
  | _ => none

/-- `BroadcastCommand` is internally tagged (`tag = "action"`): variant
fields are flattened into the object next to the tag. -/
def encodeBroadcastCommand : BroadcastCommand → Json
  | .start src mode =>
      .obj [("action", .str "start"),
            ("source", encodeBroadcastSource src),
            ("mode", encodeBroadcastMode mode)]
  | .stop => .obj [("action", .str "stop")]
  | .requestStudentShare sid =>
      .obj [("action", .str "request_student_share"), ("student_id", .str sid)]

def decodeBroadcastCommand : Json → Option BroadcastCommand
  | .obj [("action", .str "start"), ("source", src), ("mode", mode)] => do
      let src ← decodeBroadcastSource src
      let mode ← decodeBroadcastMode mode
      some (.start src mode)
  | .obj [("action", .str "stop")] => some .stop
  | .obj [("action", .str "request_student_share"), ("student_id", .str sid)] =>
      some (.requestStudentShare sid)
  | _ => none

/-- Adjacently tagged envelope (`tag = "type", content = "payload"`). -/
def tagged (tag : String) (payload : Json) : Json :=
  .obj [("type", .str tag), ("payload", payload)]

def encodeTeacherToStudent : TeacherToStudent → Json
  | .welcome a => tagged "welcome" (encodeHelloAck a)
  | .broadcast c => tagged "broadcast" (encodeBroadcastCommand c)
  | .video f => tagged "video" (encodeVideoFrame f)
  | .audio f => tagged "audio" (encodeAudioFrame f)
  | .fileOffer o => tagged "file_offer" (encodeFileOffer o)
  | .fileChunk c => tagged "file_chunk" (encodeFileChunk c)
  | .fileComplete d => tagged "file_complete" (encodeFileTransferComplete d)
  | .heartbeat h => tagged "heartbeat" (encodeHeartbeat h)
  | .error m => tagged "error" (.str m)

def decodeTeacherToStudent : Json → Option TeacherToStudent
  | .obj [("type", .str tag), ("payload", payload)] =>
      match tag with
      | "welcome" => (decodeHelloAck payload).map .welcome
      | "broadcast" => (decodeBroadcastCommand payload).map .broadcast
      | "video" => (decodeVideoFrame payload).map .video
      | "audio" => (decodeAudioFrame payload).map .audio
      | "file_offer" => (decodeFileOffer payload).map .fileOffer
      | "file_chunk" => (decodeFileChunk payload).map .fileChunk
      | "file_complete" => (decodeFileTransferComplete payload).map .fileComplete
      | "heartbeat" => (decodeHeartbeat payload).map .heartbeat
      | "error" =>
          match payload with
          | .str m => some (.error m)
          | _ => none
      | _ => none
  | _ => none

def encodeStudentToTeacher : StudentToTeacher → Json
  | .hello h => tagged "hello" (encodeHelloMessage h)
  | .heartbeat h => tagged "heartbeat" (encodeHeartbeat h)
  | .ack m => tagged "ack" (.str m)
  | .video f => tagged "video" (encodeVideoFrame f)
  | .audio f => tagged "audio" (encodeAudioFrame f)
  | .fileOffer o => tagged "file_offer" (encodeFileOffer o)
  | .fileChunk c => tagged "file_chunk" (encodeFileChunk c)
  | .fileComplete d => tagged "file_complete" (encodeFileTransferComplete d)
  | .error m => tagged "error" (.str m)

def decodeStudentToTeacher : Json → Option StudentToTeacher
  | .obj [("type", .str tag), ("payload", payload)] =>
      match tag with
      | "hello" => (decodeHelloMessage payload).map .hello
      | "heartbeat" => (decodeHeartbeat payload).map .heartbeat
      | "ack" =>
          match payload with
          | .str m => some (.ack m)
          | _ => none
      | "video" => (decodeVideoFrame payload).map .video
      | "audio" => (decodeAudioFrame payload).map .audio
      | "file_offer" => (decodeFileOffer payload).map .fileOffer
      | "file_chunk" => (decodeFileChunk payload).map .fileChunk
      | "file_complete" => (decodeFileTransferComplete payload).map .fileComplete
      | "error" =>
          match payload with
          | .str m => some (.error m)
          | _ => none
      | _ => none
  | _ => none

/-!
## Length-prefixed framing (`src/shared/src/net.rs`)

Streams are byte lists.  Serialisation of the message itself is handled
by the JSON layer above; the framing functions are stated over an
arbitrary payload / an arbitrary payload decoder, exactly as
`write_message` / `read_message` are generic over `T`.
-/

/-- `MAX_MESSAGE_SIZE` from `src/shared/src/net.rs`: 32 MiB. -/
def MAX_MESSAGE_SIZE : Nat := 32 * 1024 * 1024

/-- Little-endian 4-byte encoding of a `u32` (tokio `write_u32_le`).
Only used on lengths already checked `≤ MAX_MESSAGE_SIZE < 2^32`. -/
def u32le (n : Nat) : List Nat :=
  [n % 256, n / 256 % 256, n / 65536 % 256, n / 16777216 % 256]

/-- Little-endian 4-byte `u32` read (tokio `read_u32_le`); `none` models
end-of-stream. -/
def readU32le : List Nat → Option (Nat × List Nat)
  | b0 :: b1 :: b2 :: b3 :: rest =>
      some (b0 + 256 * b1 + 65536 * b2 + 16777216 * b3, rest)
  | _ => none

/-- Failure taxonomy of the codec (`anyhow` errors in the source,
distinguished here by their cause). -/
inductive NetError
  | eof
  | payloadTooLarge
  | malformedPayload
deriving DecidableEq, Repr

/-- `write_message` from `src/shared/src/net.rs`: fails when the
serialized payload exceeds the cap, otherwise emits the 4-byte
little-endian length followed by the payload. -/
def write_message (payload : List Nat) : Except NetError (List Nat) :=
  if payload.length > MAX_MESSAGE_SIZE then .error .payloadTooLarge
  else .ok (u32le payload.length ++ payload)

/-- `read_message` from `src/shared/src/net.rs`: reads the 4-byte
little-endian length, rejects lengths over the cap before touching the
payload, then reads exactly that many bytes and decodes them. -/
def read_message (decode : List Nat → Option α) (stream : List Nat) :
    Except NetError α :=
  match readU32le stream with
  | none => .error .eof
  | some (len, rest) =>
      if len > MAX_MESSAGE_SIZE then .error .payloadTooLarge
      else if rest.length < len then .error .eof
      else
        match decode (rest.take len) with
        | some msg => .ok msg
        | none => .error .malformedPayload

/-!
## Filename sanitisation (`src/shared/src/util.rs`)

Strings are modelled as `List Char`.  `char::is_control` is the Unicode
`Cc` category; `str::trim` removes `char::is_whitespace` (the Unicode
`White_Space` property) from both ends; `str::trim_matches('.')`
removes dots from both ends.
-/

/-- The `INVALID` array of `sanitize_filename`. -/
def INVALID_CHARS : List Char := ['\\', '/', ':', '*', '?', '"', '<', '>', '|']

/-- Rust `char::is_control`: Unicode general category `Cc`,
i.e. U+0000–U+001F and U+007F–U+009F. -/
def isRustControl (c : Char) : Bool :=
  c.toNat < 0x20 || (0x7f ≤ c.toNat && c.toNat ≤ 0x9f)

/-- Rust `char::is_whitespace`: the Unicode `White_Space` property. -/
def isRustWhitespace (c : Char) : Bool :=
  c.toNat = 0x09 || c.toNat = 0x0A || c.toNat = 0x0B || c.toNat = 0x0C ||
  c.toNat = 0x0D || c.toNat = 0x20 || c.toNat = 0x85 || c.toNat = 0xA0 ||
  c.toNat = 0x1680 || (0x2000 ≤ c.toNat && c.toNat ≤ 0x200A) ||
  c.toNat = 0x2028 || c.toNat = 0x2029 || c.toNat = 0x202F ||
  c.toNat = 0x205F || c.toNat = 0x3000

/-- Remove characters satisfying `p` from both ends of a list
(Rust `str::trim` / `str::trim_matches`). -/
def trimBy (p : Char → Bool) (l : List Char) : List Char :=
  ((l.dropWhile p).reverse.dropWhile p).reverse

/-- `sanitize_filename` from `src/shared/src/util.rs`: replace reserved
and control characters by underscores, `trim()` whitespace, then
`trim_matches('.')`, and fall back to `"_"` when empty. -/
def sanitize_filename (input : List Char) : List Char :=
  let sanitized := input.map
    (fun ch => if INVALID_CHARS.contains ch || isRustControl ch then '_' else ch)
  let sanitized := trimBy (fun c => c = '.') (trimBy isRustWhitespace sanitized)
  if sanitized = [] then ['_'] else sanitized

/-- Modelled from the claim's wording (spec §6): replace reserved and
control characters, then trim **trailing** dots and spaces only.  Used
solely to compare the claimed behaviour with the source behaviour. -/
def sanitize_filename_claimed (input : List Char) : List Char :=
  let sanitized := input.map
    (fun ch => if INVALID_CHARS.contains ch || isRustControl ch then '_' else ch)
  let sanitized := (sanitized.reverse.dropWhile (fun c => c = '.' || c = ' ')).reverse
  if sanitized = [] then ['_'] else sanitized

/-!
## Connection registry and fan-out (`src/teacher/src/server.rs`)

The registry is `HashMap<Uuid, Arc<StudentHandle>>`, keyed by the
handle's own `connection_id`; a snapshot is modelled as a list of
handles.  Each handle owns an unbounded outbound queue (the
`mpsc::unbounded_channel` sender); `send` appends to it.  `addr`,
`capabilities` and `last_seen` play no role in the claims under
verification and are omitted from the model.
-/

/-- `StudentHandle` from `src/teacher/src/server.rs` (registry entry
plus its outbound queue contents). -/
structure StudentHandle where
  connection_id : Uuid
  student_id : String
  student_name : String
  queue : List TeacherToStudent
deriving DecidableEq, Repr

/-- The filter `exclude.map_or(true, |ex| ex != **id)` of
`TeacherState::broadcast_except`. -/
def exceptAllows (exclude : Option Uuid) (id : Uuid) : Bool :=
  match exclude with
  | none => true
  | some ex => ex != id

/-- `TeacherState::broadcast_except`: enqueue `message` to every
registered handle whose connection id is not the excluded one. -/
def broadcast_except (students : List StudentHandle)
    (message : TeacherToStudent) (exclude : Option Uuid) : List StudentHandle :=
  students.map (fun s =>
    if exceptAllows exclude s.connection_id then
      { s with queue := s.queue ++ [message] }
    else s)

/-- `TeacherState::broadcast` delegates to `broadcast_except` with no
exclusion. -/
def broadcast (students : List StudentHandle) (message : TeacherToStudent) :
    List StudentHandle :=
  broadcast_except students message none

/-!
## File chunking (`TeacherServer::send_file_to_all`, `upload_file`)

Both senders walk the source file with a 64 KiB buffer, emitting one
`FileChunk` per non-empty read; the model takes the canonical
full-buffer reads (every chunk is exactly 64 KiB except a shorter final
one).  The source file is a byte list.
-/

/-- The 64 KiB chunk buffer size (`vec![0u8; 64 * 1024]`). -/
def CHUNK_SIZE : Nat := 64 * 1024

/-- Split a byte list into successive `CHUNK_SIZE` pieces; the empty
file yields no chunks (the first read returns 0 and the loop breaks). -/
def chunkify : List Nat → List (List Nat)
  | [] => []
  | a :: as =>
      ((a :: as).take CHUNK_SIZE) :: chunkify ((a :: as).drop CHUNK_SIZE)
termination_by l => l.length
decreasing_by
  simp only [List.length_drop, List.length_cons, CHUNK_SIZE]
  omega

/-- The stream of `FileChunk` messages emitted by the send loop of
`TeacherServer::send_file_to_all`, starting from a given offset.  The
`final_chunk` flag mirrors `offset + read as u64 >= metadata.len()`. -/
def chunkMessages (tid : Uuid) (total : Nat) :
    Nat → List (List Nat) → List TeacherToStudent
  | _, [] => []
  | offset, c :: rest =>
      .fileChunk ⟨tid, offset, c, decide (total ≤ offset + c.length)⟩ ::
        chunkMessages tid total (offset + c.length) rest

/-- The full message sequence emitted by
`TeacherServer::send_file_to_all` for a file with the given bytes. -/
def send_file_to_all (tid : Uuid) (file_name : String) (auto_open : Bool)
    (bytes : List Nat) : List TeacherToStudent :=
  .fileOffer ⟨tid, file_name, bytes.length, auto_open⟩ ::
    (chunkMessages tid bytes.length 0 (chunkify bytes) ++
      [.fileComplete ⟨tid, true, some ("文件 " ++ file_name ++ " 已发送")⟩])

/-- The chunk stream of the student-side `upload_file` (its
`final_chunk` is always `false`). -/
def uploadChunkMessages (tid : Uuid) :
    Nat → List (List Nat) → List StudentToTeacher
  | _, [] => []
  | offset, c :: rest =>
      .fileChunk ⟨tid, offset, c, false⟩ ::
        uploadChunkMessages tid (offset + c.length) rest

/-- The full message sequence emitted by the student-side
`upload_file`. -/
def upload_file (tid : Uuid) (file_name : String) (bytes : List Nat) :
    List StudentToTeacher :=
  .fileOffer ⟨tid, file_name, bytes.length, false⟩ ::
    (uploadChunkMessages tid 0 (chunkify bytes) ++
      [.fileComplete ⟨tid, true, some (file_name ++ " 上传完成")⟩])

/-- Byte payloads of the `FileChunk` messages of a teacher-side trace. -/
def chunkPayloads (trace : List TeacherToStudent) : List (List Nat) :=
  trace.filterMap (fun m =>
    match m with
    | .fileChunk c => some c.bytes
    | _ => none)

/-- Byte payloads of the `FileChunk` messages of a student-side trace. -/
def chunkPayloadsUp (trace : List StudentToTeacher) : List (List Nat) :=
  trace.filterMap (fun m =>
    match m with
    | .fileChunk c => some c.bytes
    | _ => none)

/-!
## Transfer-session tables

Both sides keep a `HashMap<Uuid, …Session>`; a map is modelled as an
association list whose operations mirror `get_mut` / `insert` /
`remove`.  An open file handle is modelled by the byte list written to
it so far.
-/

/-- `HashMap::get` / `get_mut` on the session table. -/
def lookupSession : List (Uuid × α) → Uuid → Option α
  | [], _ => none
  | (k, v) :: rest, tid => if k = tid then some v else lookupSession rest tid

/-- `HashMap::insert`: replace the binding if the key is present,
otherwise add it. -/
def insertSession : List (Uuid × α) → Uuid → α → List (Uuid × α)
  | [], tid, v => [(tid, v)]
  | (k, w) :: rest, tid, v =>
      if k = tid then (tid, v) :: rest else (k, w) :: insertSession rest tid v

/-- In-place mutation through `get_mut`. -/
def updateSession : List (Uuid × α) → Uuid → (α → α) → List (Uuid × α)
  | [], _, _ => []
  | (k, v) :: rest, tid, f =>
      if k = tid then (k, f v) :: rest else (k, v) :: updateSession rest tid f

/-- `HashMap::remove`: the table without the binding, and the removed
value if there was one. -/
def removeSession : List (Uuid × α) → Uuid → List (Uuid × α) × Option α
  | [], _ => ([], none)
  | (k, v) :: rest, tid =>
      if k = tid then (rest, some v)
      else
        let (r, o) := removeSession rest tid
        ((k, v) :: r, o)

/-!
## Teacher-side per-connection message handler
(`handle_student_connection`, `src/teacher/src/server.rs`)
-/

/-- `TeacherState::prepare_upload_path`: the per-student directory name
and the file name, both sanitised (rooted at the configured
`save_upload_dir`, which is constant and omitted). -/
structure UploadPath where
  student_dir : List Char
  file_name : List Char
deriving DecidableEq, Repr

def prepare_upload_path (student_id file_name : String) : UploadPath :=
  ⟨sanitize_filename student_id.data, sanitize_filename file_name.data⟩

/-- `UploadSession` from `src/teacher/src/server.rs`; `content` models
the bytes written to the open file handle.  `expected` is dead code in
the source (`#[allow(dead_code)]`) but kept for fidelity. -/
structure UploadSession where
  path : UploadPath
  expected : Nat
  received : Nat
  content : List Nat
deriving DecidableEq, Repr

/-- Log lines the teacher's reader loop can emit.  `sizeMismatch` is
included so that its absence from the teacher's outputs is a statable
fact; the teacher-side source has no code emitting it. -/
inductive TeacherLog
  | duplicateHello
  | preparingUpload (student_id : String) (file_name : String)
  | unknownChunk (transfer_id : Uuid)
  | uploadFinished (student_id : String)
  | uploadFailed (student_id : String)
  | studentReportedError (msg : String)
  | sizeMismatch (expected received : Nat)
deriving DecidableEq, Repr

/-- Observable effects of one iteration of the teacher's reader loop:
fan-out relays, direct replies on this connection's queue, log lines. -/
inductive TeacherEffect
  | relayExcept (message : TeacherToStudent) (exclude : Uuid)
  | reply (message : TeacherToStudent)
  | log (line : TeacherLog)
deriving DecidableEq, Repr

/-- `TeacherState::is_student_broadcasting`: the current broadcast
source is a student with this `student_id`. -/
def is_student_broadcasting (source : Option BroadcastSource)
    (student_id : String) : Bool :=
  match source with
  | some (.student sid _) => sid == student_id
  | _ => false

/-- One iteration of the reader loop of `handle_student_connection`:
the current broadcast source, this connection's id and the student id
from its `Hello` are ambient; the upload table is threaded through.
File writes always succeed in the model (an I/O failure aborts the
whole connection in the source and is outside these claims). -/
def handleStudentMessage (source : Option BroadcastSource)
    (connection_id : Uuid) (student_id : String)
    (uploads : List (Uuid × UploadSession)) :
    StudentToTeacher → List (Uuid × UploadSession) × List TeacherEffect
  | .hello _ => (uploads, [.log .duplicateHello])
  | .heartbeat _ => (uploads, [])
  | .video frame =>
      if is_student_broadcasting source student_id then
        (uploads, [.relayExcept (.video frame) connection_id])
      else (uploads, [])
  | .audio frame => (uploads, [.relayExcept (.audio frame) connection_id])
  | .fileOffer offer =>
      (insertSession uploads offer.transfer_id
        ⟨prepare_upload_path student_id offer.file_name, offer.total_size, 0, []⟩,
       [.log (.preparingUpload student_id offer.file_name)])
  | .fileChunk chunk =>
      match lookupSession uploads chunk.transfer_id with
      | some _ =>
          (updateSession uploads chunk.transfer_id (fun s =>
            { s with
                content := s.content ++ chunk.bytes,
                received := s.received + chunk.bytes.length }),
           [])
      | none => (uploads, [.log (.unknownChunk chunk.transfer_id)])
  | .fileComplete done =>
      match removeSession uploads done.transfer_id with
      | (rest, some _) =>
          if done.success then
            (rest,
             [.log (.uploadFinished student_id),
              .reply (.fileComplete ⟨done.transfer_id, true, some "文件上传完成"⟩)])
          else (rest, [.log (.uploadFailed student_id)])
      | (_, none) => (uploads, [])
  | .ack _ => (uploads, [])
  | .error msg => (uploads, [.log (.studentReportedError msg)])

/-- The reader loop folded over a whole inbound message sequence,
accumulating effects in order. -/
def runStudentMessages (source : Option BroadcastSource)
    (connection_id : Uuid) (student_id : String) :
    List (Uuid × UploadSession) → List StudentToTeacher →
    List (Uuid × UploadSession) × List TeacherEffect
  | uploads, [] => (uploads, [])
  | uploads, m :: ms =>
      let (uploads1, out) :=
        handleStudentMessage source connection_id student_id uploads m
      let (uploads2, outs) :=
        runStudentMessages source connection_id student_id uploads1 ms
      (uploads2, out ++ outs)

/-!
## Student-side download table (`FileDownloadManager`,
`src/student/src/files.rs`)
-/

/-- `DownloadSession` from `src/student/src/files.rs`; `path` is the
sanitised file name under the configured download root (constant,
omitted), `content` the bytes written so far. -/
structure DownloadSession where
  path : List Char
  expected : Nat
  received : Nat
  auto_open : Bool
  content : List Nat
deriving DecidableEq, Repr

/-- Log lines of the download manager. -/
inductive StudentLog
  | unknownChunk (transfer_id : Uuid)
  | transferFailed
  | sizeMismatch (expected received : Nat)
  | unknownComplete (transfer_id : Uuid)
deriving DecidableEq, Repr

/-- `FileDownloadManager::handle_offer`: create the destination file
and register the session (file creation succeeds in the model). -/
def handle_offer (default_auto_open : Bool)
    (sessions : List (Uuid × DownloadSession)) (offer : FileOffer) :
    List (Uuid × DownloadSession) × List Char :=
  let target := sanitize_filename offer.file_name.data
  (insertSession sessions offer.transfer_id
    ⟨target, offer.total_size, 0, offer.auto_open || default_auto_open, []⟩,
   target)

/-- `FileDownloadManager::handle_chunk`: append to the session's file
and advance its counter; unknown ids are logged and dropped. -/
def handle_chunk (sessions : List (Uuid × DownloadSession))
    (chunk : FileChunk) : List (Uuid × DownloadSession) × List StudentLog :=
  match lookupSession sessions chunk.transfer_id with
  | some _ =>
      (updateSession sessions chunk.transfer_id (fun s =>
        { s with
            content := s.content ++ chunk.bytes,
            received := s.received + chunk.bytes.length }),
       [])
  | none => (sessions, [.unknownChunk chunk.transfer_id])

/-- `FileDownloadManager::handle_complete`: remove the session, warn on
failure or size mismatch, and surface the path when auto-open is set. -/
def handle_complete (sessions : List (Uuid × DownloadSession))
    (complete : FileTransferComplete) :
    List (Uuid × DownloadSession) × List StudentLog × Option (List Char) :=
  match removeSession sessions complete.transfer_id with
  | (rest, some session) =>
      if !complete.success then (rest, [.transferFailed], none)
      else
        (rest,
         (if session.received ≠ session.expected then
            [.sizeMismatch session.expected session.received]
          else []),
         if session.auto_open then some session.path else none)
  | (_, none) => (sessions, [.unknownComplete complete.transfer_id], none)

/-!
## Broadcast-control traces (`TeacherServer::start_teacher_broadcast`,
`start_student_broadcast`, `stop_broadcast`) and the student's reaction
(`handle_broadcast_command`, `src/student/src/client.rs`)

Each control method executes a fixed sequence of side-effecting steps
on the teacher's single command task; the sequence is modelled as an
event list in program order.
-/

/-- Side-effecting steps of the teacher's control methods. -/
inductive ControlEvent
  | screenStop
  | screenStart (mode : BroadcastMode)
  | setSource (source : Option BroadcastSource) (mode : BroadcastMode)
  | sendCommand (cmd : BroadcastCommand)
deriving DecidableEq, Repr

/-- `TeacherServer::start_teacher_broadcast`: set the source, start the
local capture loop, then broadcast the `Start` command. -/
def start_teacher_broadcast (mode : BroadcastMode) : List ControlEvent :=
  [.setSource (some .teacher) mode,
   .screenStart mode,
   .sendCommand (.start .teacher mode)]

/-- `TeacherServer::start_student_broadcast`: stop the local capture
loop first, then set the source and broadcast the `Start` command
(`resolved_name` is `find_student_name(id).unwrap_or(id)`). -/
def start_student_broadcast (student_id resolved_name : String) :
    List ControlEvent :=
  [.screenStop,
   .setSource (some (.student student_id (some resolved_name))) .fullscreen,
   .sendCommand (.start (.student student_id (some resolved_name)) .fullscreen)]

/-- `TeacherServer::stop_broadcast`. -/
def stop_broadcast : List ControlEvent :=
  [.screenStop, .setSource none .window, .sendCommand .stop]

/-- Effects on the student's capture/rendering collaborators. -/
inductive StudentEffect
  | streamerStop
  | streamerStart
  | rendererStop
deriving DecidableEq, Repr

/-- Capture-side effects of `handle_broadcast_command` in
`src/student/src/client.rs` (mode bookkeeping omitted): a spotlighted
student starts its streamer, everyone else stops theirs. -/
def handle_broadcast_command (own_student_id : String) :
    BroadcastCommand → List StudentEffect
  | .start source _ =>
      match source with
      | .teacher => [.streamerStop]
      | .student sid _ =>
          if sid = own_student_id then [.streamerStart] else [.streamerStop]
  | .stop => [.streamerStop, .rendererStop]
  | .requestStudentShare sid =>
      if sid = own_student_id then [.streamerStart] else []

/-- Does some `screenStop` occur before the first `screenStart` of a
control trace?  (The claim's "A's capture is stopped before B's start"
for the teacher's local pipeline.) -/
def stopsBeforeStart (trace : List ControlEvent) : Bool :=
  (trace.takeWhile (fun e =>
    match e with
    | .screenStart _ => false
    | _ => true)).any (fun e => e == .screenStop)

/-!
## Teacher-screen capture pipeline (`src/teacher/src/screen.rs`)

`start_teacher_broadcast` runs `set_broadcast_source`, then
`screen.start(mode)` — which spawns the `capture_loop` task — and then
`broadcast_command(Start{Teacher, mode})`, all on the command task.
The spawned capture loop runs concurrently on the multi-threaded
scheduler; each completed tick broadcasts one video frame.  An
execution is modelled as an interleaving (`isMerge`) of the command
task's three steps with the capture loop's frame completions, where no
frame can complete before the loop is spawned.  What one connected
student receives, in its per-connection FIFO queue, is the projection
of the interleaving onto the two enqueueing events.
-/

/-- Events of a `start`-command execution. -/
inductive StartEvent
  | setSource
  | spawnCapture
  | sendStart
  | frameDone (frame_id : Nat)
deriving DecidableEq, Repr

/-- Program order of `start_teacher_broadcast` on the command task. -/
def mainTaskEvents : List StartEvent := [.setSource, .spawnCapture, .sendStart]

/-- Program order of the capture loop: it broadcasts frames with ids
`1, 2, …, k` (ids are drawn from `TeacherState::next_frame_id`, here
from a fresh counter). -/
def captureEvents (k : Nat) : List StartEvent :=
  (List.range k).map (fun i => .frameDone (i + 1))

/-- `isMerge xs ys zs`: `zs` is an order-preserving interleaving of
`xs` and `ys`. -/
def isMerge : List StartEvent → List StartEvent → List StartEvent → Bool
  | xs, ys, [] => xs.isEmpty && ys.isEmpty
  | xs, ys, z :: zs =>
      (match xs with
       | x :: tailx => x == z && isMerge tailx ys zs
       | [] => false) ||
      (match ys with
       | y :: taily => y == z && isMerge xs taily zs
       | [] => false)

/-- Is the event a frame completion? -/
def isFrameEvent : StartEvent → Bool
  | .frameDone _ => true
  | _ => false

/-- A possible execution of `start_teacher_broadcast` with `k` frame
completions: an interleaving of the two program orders in which no
frame completes before the capture task is spawned. -/
def validStartSchedule (k : Nat) (tr : List StartEvent) : Prop :=
  isMerge mainTaskEvents (captureEvents k) tr = true ∧
  (tr.takeWhile (fun e => e != .spawnCapture)).filter isFrameEvent = []

/-- What a connected student receives (in FIFO order): the
`Start{Teacher, mode}` command and the video frames, as enqueued by
`broadcast_command` and `broadcast_video`. -/
inductive Rx
  | startCommand
  | videoFrame (frame_id : Nat)
deriving DecidableEq, Repr

/-- Projection of an execution onto one student's queue. -/
def received : List StartEvent → List Rx
  | [] => []
  | .sendStart :: rest => .startCommand :: received rest
  | .frameDone n :: rest => .videoFrame n :: received rest
  | .setSource :: rest => received rest
  | .spawnCapture :: rest => received rest

/-- Frame completions that an execution performs before the `Start`
command is broadcast. -/
def framesBeforeCommand (tr : List StartEvent) : List StartEvent :=
  (tr.takeWhile (fun e => e != .sendStart)).filter isFrameEvent

/-- Does the student's queue hold the `Start` command before every
video frame?  (The ordering asserted by the claim.) -/
def startBeforeVideos (rxs : List Rx) : Bool :=
  (rxs.takeWhile (fun r => r != .startCommand)).all (fun r =>
    match r with
    | .videoFrame _ => false
    | _ => true)

/-- A concrete execution of `start_teacher_broadcast` in which the
spawned capture loop completes its first tick before the command task
has broadcast the `Start` command. -/
def badStartSchedule : List StartEvent :=
  [.setSource, .spawnCapture, .frameDone 1, .sendStart]

/-- `capture_frame` from `src/teacher/src/screen.rs`, with the actual
screenshot and JPEG encoding abstracted as the produced dimensions and
bytes: the frame is stamped with the given id, `source = Teacher`,
`codec = Jpeg` and the fullscreen flag of the requested mode. -/
def capture_frame (frame_id timestamp_ms width height : Nat)
    (mode : BroadcastMode) (jpeg_bytes : List Nat) : VideoFrame :=
  ⟨frame_id, timestamp_ms, .teacher, .jpeg, width, height,
   mode == .fullscreen, jpeg_bytes⟩

/-- The frames broadcast by `n` consecutive successful ticks of the
teacher `capture_loop`, starting from frame counter `c`
(`next_frame_id` returns `fetch_add(1) + 1`, i.e. `c+1, c+2, …`);
timestamps, dimensions and encoded bytes vary freely per tick. -/
def captureLoopFrames (c n : Nat) (ts w h : Nat → Nat)
    (jpeg : Nat → List Nat) (mode : BroadcastMode) : List VideoFrame :=
  (List.range n).map (fun i =>
    capture_frame (c + i + 1) (ts i) (w i) (h i) mode (jpeg i))

/-!
### Round-trip lemmas for the JSON representation
-/

@[simp]
theorem decodeOptStr_encodeOptStr (o : Option String) :
    decodeOptStr (encodeOptStr o) = some o := by
  cases o <;> rfl

@[simp]
theorem decodeBroadcastMode_encodeBroadcastMode (m : BroadcastMode) :
    decodeBroadcastMode (encodeBroadcastMode m) = some m := by
  cases m <;> rfl

@[simp]
theorem decodeVideoCodec_encodeVideoCodec (c : VideoCodec) :
    decodeVideoCodec (encodeVideoCodec c) = some c := by
  cases c <;> rfl

@[simp]
theorem decodeBroadcastSource_encodeBroadcastSource (s : BroadcastSource) :
    decodeBroadcastSource (encodeBroadcastSource s) = some s := by
  cases s with
  | teacher => rfl
  | student sid sname => cases sname <;> rfl

@[simp]
theorem decodeBytesList_map_num (bs : List Nat) :
    decodeBytesList (bs.map Json.num) = some bs := by
  induction bs with
  | nil => rfl
  | cons b rest ih => simp [decodeBytesList, ih]

@[simp]
theorem decodeBytes_encodeBytes (bs : List Nat) :
    decodeBytes (encodeBytes bs) = some bs := by
  simp [encodeBytes, decodeBytes]

@[simp]
theorem decodeVideoFrame_encodeVideoFrame (f : VideoFrame) :
    decodeVideoFrame (encodeVideoFrame f) = some f := by
  cases f
  simp [encodeVideoFrame, decodeVideoFrame]

@[simp]
theorem decodeAudioFrame_encodeAudioFrame (f : AudioFrame) :
    decodeAudioFrame (encodeAudioFrame f) = some f := by
  cases f
  simp [encodeAudioFrame, decodeAudioFrame]

@[simp]
theorem decodeFileOffer_encodeFileOffer (o : FileOffer) :
    decodeFileOffer (encodeFileOffer o) = some o := by
  cases o
  simp [encodeFileOffer, decodeFileOffer]

@[simp]
theorem decodeFileChunk_encodeFileChunk (c : FileChunk) :
    decodeFileChunk (encodeFileChunk c) = some c := by
  cases c
  simp [encodeFileChunk, decodeFileChunk]

@[simp]
theorem decodeFileTransferComplete_encodeFileTransferComplete
    (d : FileTransferComplete) :
    decodeFileTransferComplete (encodeFileTransferComplete d) = some d := by
  cases d
  simp [encodeFileTransferComplete, decodeFileTransferComplete]

@[simp]
theorem decodeStudentCapabilities_encodeStudentCapabilities
    (c : StudentCapabilities) :
    decodeStudentCapabilities (encodeStudentCapabilities c) = some c := by
  cases c
  rfl

@[simp]
theorem decodeHelloMessage_encodeHelloMessage (h : HelloMessage) :
    decodeHelloMessage (encodeHelloMessage h) = some h := by
  cases h
  simp [encodeHelloMessage, decodeHelloMessage]

@[simp]
theorem decodeHelloAck_encodeHelloAck (a : HelloAck) :
    decodeHelloAck (encodeHelloAck a) = some a := by
  cases a
  simp [encodeHelloAck, decodeHelloAck]

@[simp]
theorem decodeHeartbeat_encodeHeartbeat (h : Heartbeat) :
    decodeHeartbeat (encodeHeartbeat h) = some h := by
  cases h
  rfl

@[simp]
theorem decodeBroadcastCommand_encodeBroadcastCommand (c : BroadcastCommand) :
    decodeBroadcastCommand (encodeBroadcastCommand c) = some c := by
  cases c with
  | start src mode => simp [encodeBroadcastCommand, decodeBroadcastCommand]
  | stop => rfl
  | requestStudentShare sid => rfl

theorem decodeTeacherToStudent_encodeTeacherToStudent (m : TeacherToStudent) :
    decodeTeacherToStudent (encodeTeacherToStudent m) = some m := by
  cases m <;> simp [encodeTeacherToStudent, decodeTeacherToStudent, tagged]

theorem decodeStudentToTeacher_encodeStudentToTeacher (m : StudentToTeacher) :
    decodeStudentToTeacher (encodeStudentToTeacher m) = some m := by
  cases m <;> simp [encodeStudentToTeacher, decodeStudentToTeacher, tagged]

/-!
## Claim theorems
-/

/-- Claim C4: for every message `m` of the `TeacherToStudent` and
`StudentToTeacher` taxonomies, reading back a message written by the
codec yields the original: decoding the encoded wire document gives
`m` again, in both directions. -/
theorem message_roundtrip :
    (∀ m : TeacherToStudent,
      decodeTeacherToStudent (encodeTeacherToStudent m) = some m) ∧
    (∀ m : StudentToTeacher,
      decodeStudentToTeacher (encodeStudentToTeacher m) = some m) :=
  ⟨decodeTeacherToStudent_encodeTeacherToStudent,
   decodeStudentToTeacher_encodeStudentToTeacher⟩

/-- Claim C2, counterexample: `start_teacher_broadcast` performs no
stop at all — its trace contains no `screenStop`, and the broadcast of
the `Start{Teacher}` command (the only mechanism that makes a
spotlighted student stop capturing) happens only *after* the teacher's
own capture loop is started.  So when a student is the active source,
that student's capture is not stopped before the teacher's start
completes. -/
theorem start_teacher_broadcast_stops_nothing_first :
    stopsBeforeStart (start_teacher_broadcast .fullscreen) = false
    ∧ (start_teacher_broadcast .fullscreen).all
        (fun e => e != .screenStop) = true
    ∧ ((start_teacher_broadcast .fullscreen).takeWhile (fun e =>
          match e with
          | .screenStart _ => false
          | _ => true)).all (fun e =>
        match e with
        | .sendCommand _ => false
        | _ => true) = true := by
  decide

/-- Claim C2, amended: starting a student broadcast stops the teacher's
local capture loop as its very first step, before the new source is
set; starting a teacher broadcast, however, stops nothing first — its
own capture starts immediately and the `Start{Teacher}` command, whose
receipt is what makes a spotlighted student stop its streamer, is only
broadcast afterwards, so the student's capture pipeline is stopped
asynchronously after the teacher's start completes and the two
pipelines may briefly overlap. -/
theorem broadcast_source_switch_ordering :
    ∀ (mode : BroadcastMode) (sid name own : String),
      (start_student_broadcast sid name).head? = some .screenStop
      ∧ stopsBeforeStart (start_student_broadcast sid name) = true
      ∧ stopsBeforeStart (start_teacher_broadcast mode) = false
      ∧ (start_teacher_broadcast mode).getLast? =
          some (.sendCommand (.start .teacher mode))
      ∧ handle_broadcast_command own (.start .teacher mode) = [.streamerStop] := by
  intro mode sid name own
  refine ⟨rfl, rfl, ?_, ?_, rfl⟩ <;> cases mode <;> rfl

theorem mem_of_mem_trimBy {c : Char} {p : Char → Bool} {l : List Char}
    (h : c ∈ trimBy p l) : c ∈ l := by
  unfold trimBy at h
  have h1 := List.mem_reverse.mp h
  have h2 := List.Sublist.mem h1 (List.dropWhile_sublist _)
  have h3 := List.mem_reverse.mp h2
  exact List.Sublist.mem h3 (List.dropWhile_sublist _)

/-- Claim C9, counterexample: on input `"a . "` the source's
`sanitize_filename` returns `"a "` — a name still ending in a space —
while the claimed behaviour (trim only trailing dots and spaces)
returns `"a"`.  The source trims whitespace first and dots second, on
both ends, so a space protected by a later-trimmed dot survives. -/
theorem sanitize_filename_keeps_protected_trailing_space :
    sanitize_filename ['a', ' ', '.', ' '] = ['a', ' ']
    ∧ sanitize_filename_claimed ['a', ' ', '.', ' '] = ['a']
    ∧ (sanitize_filename ['a', ' ', '.', ' ']).getLast? = some ' ' := by
  decide

/-- Claim C9, amended: `sanitize_filename` replaces each reserved and
each control character with an underscore, trims whitespace from both
ends and then dots from both ends (so the result may retain a space
that stood before a trimmed trailing dot), and returns the placeholder
`"_"` when the result would be empty; consequently the returned name
is always non-empty and contains no reserved character — in particular
no path separator — and no control character, so a stored upload stays
inside its per-student directory. -/
theorem sanitize_filename_safe :
    ∀ (input : List Char),
      (sanitize_filename input).isEmpty = false
      ∧ (sanitize_filename input).all
          (fun c => !INVALID_CHARS.contains c && !isRustControl c) = true := by
  intro input
  constructor
  · simp only [sanitize_filename]
    split
    · rfl
    · next hne => simpa [List.isEmpty_iff] using hne
  · rw [List.all_eq_true]
    intro c hc
    simp only [sanitize_filename] at hc
    split at hc
    · have : c = '_' := by simpa using hc
      subst this
      decide
    · have hmem : c ∈ input.map (fun ch =>
          if INVALID_CHARS.contains ch || isRustControl ch then '_' else ch) :=
        mem_of_mem_trimBy (mem_of_mem_trimBy hc)
      obtain ⟨a, _, rfl⟩ := List.mem_map.mp hmem
      by_cases hbad : (INVALID_CHARS.contains a || isRustControl a) = true
      · simp only [hbad, if_true]
        decide
      · have hmm : (INVALID_CHARS.contains a || isRustControl a) = false :=
          Bool.eq_false_iff.mpr hbad
        obtain ⟨h1, h2⟩ := Bool.or_eq_false_iff.mp hmm
        have h3 : a ∉ INVALID_CHARS := by simpa using h1
        simp [hmm, h1, h2, h3]

theorem exceptAllows_eq_true_iff (exclude : Option Uuid) (id : Uuid) :
    exceptAllows exclude id = true ↔ exclude ≠ some id := by
  cases exclude with
  | none => simp [exceptAllows]
  | some e => simp [exceptAllows, bne_iff_ne]

/-- Claim C6: for any registry snapshot, message and excluded
connection, `broadcast_except` enqueues the message to every registered
session except the excluded one and to no other session (sessions keep
their identity, and only the non-excluded queues grow by exactly this
message); instantiating the exclusion with the relaying connection's
own id — as the Video-relay arm of `handle_student_connection` does —
a spotlighted student's frames are delivered to every other connected
student and never echoed back to itself. -/
theorem broadcast_except_delivers :
    (∀ (students : List StudentHandle) (message : TeacherToStudent)
       (exclude : Option Uuid),
      List.Forall₂ (fun s t =>
        t.connection_id = s.connection_id ∧ t.student_id = s.student_id ∧
        t.student_name = s.student_name ∧
        t.queue = if exclude = some s.connection_id then s.queue
                  else s.queue ++ [message])
        students (broadcast_except students message exclude))
    ∧ (∀ (sid : String) (n : Option String) (connId : Uuid)
         (uploads : List (Uuid × UploadSession)) (f : VideoFrame),
        (handleStudentMessage (some (.student sid n)) connId sid uploads
            (.video f)).2 = [.relayExcept (.video f) connId]) := by
  constructor
  · intro students message exclude
    induction students with
    | nil => simp [broadcast_except]
    | cons s rest ih =>
        simp only [broadcast_except, List.map_cons] at ih ⊢
        refine List.Forall₂.cons ?_ ih
        by_cases h : exclude = some s.connection_id
        · subst h
          have hfalse : exceptAllows (some s.connection_id) s.connection_id
              = false := by simp [exceptAllows]
          simp [hfalse]
        · have htrue : exceptAllows exclude s.connection_id = true :=
            (exceptAllows_eq_true_iff _ _).mpr h
          simp [htrue, h]
  · intro sid n connId uploads f
    simp [handleStudentMessage, is_student_broadcasting]

theorem is_student_broadcasting_iff (source : Option BroadcastSource)
    (sid : String) :
    is_student_broadcasting source sid = true ↔
      ∃ n, source = some (.student sid n) := by
  cases source with
  | none => simp [is_student_broadcasting]
  | some src =>
      cases src with
      | teacher => simp [is_student_broadcasting]
      | student s m =>
          simp only [is_student_broadcasting, beq_iff_eq, Option.some.injEq,
            BroadcastSource.student.injEq]
          constructor
          · rintro rfl
            exact ⟨m, rfl, rfl⟩
          · rintro ⟨n, rfl, rfl⟩
            rfl

/-- Claim C10: a Video frame received from a student is relayed (to
everyone but the sender) exactly when that student is the current
broadcast source, while an Audio frame received from a student is
relayed unconditionally, whatever the current source; neither touches
the upload table. -/
theorem video_gated_audio_unconditional :
    ∀ (source : Option BroadcastSource) (connId : Uuid) (sid : String)
      (uploads : List (Uuid × UploadSession)) (vf : VideoFrame)
      (af : AudioFrame),
      (TeacherEffect.relayExcept (.video vf) connId ∈
          (handleStudentMessage source connId sid uploads (.video vf)).2 ↔
        ∃ n, source = some (.student sid n))
      ∧ (handleStudentMessage source connId sid uploads (.video vf)).1 = uploads
      ∧ (handleStudentMessage source connId sid uploads (.audio af)).2 =
          [.relayExcept (.audio af) connId]
      ∧ (handleStudentMessage source connId sid uploads (.audio af)).1 =
          uploads := by
  intro source connId sid uploads vf af
  refine ⟨?_, ?_, rfl, rfl⟩
  · rw [← is_student_broadcasting_iff]
    cases hb : is_student_broadcasting source sid <;>
      simp [handleStudentMessage, hb]
  · cases hb : is_student_broadcasting source sid <;>
      simp [handleStudentMessage, hb]

theorem readU32le_u32le (n : Nat) (h : n < 4294967296) (rest : List Nat) :
    readU32le (u32le n ++ rest) = some (n, rest) := by
  simp only [u32le, readU32le, List.cons_append, List.nil_append]
  have hn : n % 256 + 256 * (n / 256 % 256) + 65536 * (n / 65536 % 256) +
      16777216 * (n / 16777216 % 256) = n := by omega
  rw [hn]

/-- Claim C5: `write_message` fails with a payload-too-large error
exactly when the serialized payload exceeds 32 MiB and otherwise writes
the 4-byte little-endian length followed by the payload; `read_message`
rejects any declared length over 32 MiB up front — the error depends
only on the length prefix, whatever bytes (however few) follow, so no
payload buffer is involved — and otherwise reads exactly the declared
number of bytes and decodes them, failing on a decode error. -/
theorem framing_codec_contract :
    (∀ payload : List Nat,
      (write_message payload = .error .payloadTooLarge ↔
        MAX_MESSAGE_SIZE < payload.length))
    ∧ (∀ payload : List Nat, payload.length ≤ MAX_MESSAGE_SIZE →
        write_message payload = .ok (u32le payload.length ++ payload))
    ∧ (∀ (α : Type) (decode : List Nat → Option α) (len : Nat)
         (rest : List Nat), MAX_MESSAGE_SIZE < len → len < 4294967296 →
        read_message decode (u32le len ++ rest) = .error .payloadTooLarge)
    ∧ (∀ (α : Type) (decode : List Nat → Option α) (payload rest : List Nat)
         (t : α), payload.length ≤ MAX_MESSAGE_SIZE → decode payload = some t →
        read_message decode (u32le payload.length ++ (payload ++ rest)) = .ok t)
    ∧ (∀ (α : Type) (decode : List Nat → Option α) (payload rest : List Nat),
        payload.length ≤ MAX_MESSAGE_SIZE → decode payload = none →
        read_message decode (u32le payload.length ++ (payload ++ rest)) =
          .error .malformedPayload) := by
  refine ⟨?_, ?_, ?_, ?_, ?_⟩
  · intro payload
    by_cases h : MAX_MESSAGE_SIZE < payload.length <;> simp [write_message, h]
  · intro payload h
    simp [write_message, Nat.not_lt.mpr h]
  · intro α decode len rest hbig hlt
    simp [read_message, readU32le_u32le len hlt, hbig]
  · intro α decode payload rest t h hd
    have hlt : payload.length < 4294967296 :=
      lt_of_le_of_lt h (by norm_num [MAX_MESSAGE_SIZE])
    have hlen : ¬ (payload ++ rest).length < payload.length := by
      simp [List.length_append]
    simp [read_message, readU32le_u32le _ hlt, Nat.not_lt.mpr h, hlen,
      List.take_left, hd]
  · intro α decode payload rest h hd
    have hlt : payload.length < 4294967296 :=
      lt_of_le_of_lt h (by norm_num [MAX_MESSAGE_SIZE])
    have hlen : ¬ (payload ++ rest).length < payload.length := by
      simp [List.length_append]
    simp [read_message, readU32le_u32le _ hlt, Nat.not_lt.mpr h, hlen,
      List.take_left, hd]

/-- Witness for C5: a 3-byte payload is framed and read back, and a
declared length of 32 MiB + 1 on a 1-byte stream is rejected as too
large. -/
theorem framing_codec_contract_witness :
    write_message [1, 2, 3] = .ok (u32le 3 ++ [1, 2, 3])
    ∧ read_message (fun l => some l.length) (u32le 3 ++ ([1, 2, 3] ++ [])) =
        .ok 3
    ∧ read_message (fun _ : List Nat => (none : Option Nat))
        (u32le 33554433 ++ [0]) = .error .payloadTooLarge := by
  refine ⟨?_, ?_, ?_⟩
  · exact framing_codec_contract.2.1 [1, 2, 3] (by norm_num [MAX_MESSAGE_SIZE])
  · exact framing_codec_contract.2.2.2.1 Nat (fun l => some l.length)
      [1, 2, 3] [] 3 (by norm_num [MAX_MESSAGE_SIZE]) rfl
  · exact framing_codec_contract.2.2.1 Nat _ 33554433 [0]
      (by norm_num [MAX_MESSAGE_SIZE]) (by norm_num)

theorem chunkify_flatten : ∀ l : List Nat, (chunkify l).flatten = l := by
  intro l
  induction l using chunkify.induct with
  | case1 => simp [chunkify]
  | case2 a as ih =>
      rw [chunkify]
      simp only [List.flatten_cons, ih, List.take_append_drop]

theorem chunkify_all_short :
    ∀ l : List Nat, (chunkify l).all
      (fun c => decide (c.length ≤ CHUNK_SIZE) && !c.isEmpty) = true := by
  intro l
  induction l using chunkify.induct with
  | case1 => simp [chunkify]
  | case2 a as ih =>
      rw [chunkify]
      simp only [List.all_cons, ih, Bool.and_true, Bool.and_eq_true,
        decide_eq_true_eq, Bool.not_eq_true']
      constructor
      · simp [Nat.min_le_left CHUNK_SIZE (as.length + 1)]
      · simp [List.isEmpty_iff, List.take_eq_nil_iff, CHUNK_SIZE]

theorem foldl_append_eq_join :
    ∀ (L : List (List Nat)) (init : List Nat),
      L.foldl (fun acc c => acc ++ c) init = init ++ L.flatten := by
  intro L
  induction L with
  | nil => simp
  | cons x rest ih => intro init; simp [ih, List.append_assoc]

theorem filterMap_chunkMessages :
    ∀ (cs : List (List Nat)) (tid : Uuid) (total off : Nat),
      (chunkMessages tid total off cs).filterMap (fun m =>
        match m with
        | TeacherToStudent.fileChunk c => some c.bytes
        | _ => none) = cs := by
  intro cs
  induction cs with
  | nil => intro tid total off; rfl
  | cons c rest ih =>
      intro tid total off
      simp [chunkMessages, List.filterMap_cons, ih]

theorem filterMap_uploadChunkMessages :
    ∀ (cs : List (List Nat)) (tid : Uuid) (off : Nat),
      (uploadChunkMessages tid off cs).filterMap (fun m =>
        match m with
        | StudentToTeacher.fileChunk c => some c.bytes
        | _ => none) = cs := by
  intro cs
  induction cs with
  | nil => intro tid off; rfl
  | cons c rest ih =>
      intro tid off
      simp [uploadChunkMessages, List.filterMap_cons, ih]

/-- Claim C7: sending a file of size `N` emits first a `FileOffer` with
`total_size = N`, then `FileChunk`s of at most 64 KiB each, none empty,
whose byte counts sum to `N` and whose in-order concatenation —
equivalently, a receiver's successive appends — reproduces the source
bytes, and finally a `FileComplete` with `success = true`; the empty
file produces no chunks.  This holds for the teacher's
`send_file_to_all` and for the student's `upload_file`. -/
theorem send_file_chunking :
    ∀ (tid : Uuid) (file_name : String) (auto_open : Bool) (bytes : List Nat),
      (send_file_to_all tid file_name auto_open bytes).head? =
          some (.fileOffer ⟨tid, file_name, bytes.length, auto_open⟩)
      ∧ (∃ m, (send_file_to_all tid file_name auto_open bytes).getLast? =
          some (.fileComplete ⟨tid, true, m⟩))
      ∧ chunkPayloads (send_file_to_all tid file_name auto_open bytes) =
          chunkify bytes
      ∧ (upload_file tid file_name bytes).head? =
          some (.fileOffer ⟨tid, file_name, bytes.length, false⟩)
      ∧ (∃ m, (upload_file tid file_name bytes).getLast? =
          some (.fileComplete ⟨tid, true, m⟩))
      ∧ chunkPayloadsUp (upload_file tid file_name bytes) = chunkify bytes
      ∧ (chunkify bytes).all
          (fun c => decide (c.length ≤ CHUNK_SIZE) && !c.isEmpty) = true
      ∧ ((chunkify bytes).map List.length).sum = bytes.length
      ∧ (chunkify bytes).foldl (fun acc c => acc ++ c) [] = bytes
      ∧ chunkify ([] : List Nat) = [] := by
  intro tid file_name auto_open bytes
  refine ⟨rfl, ⟨some ("文件 " ++ file_name ++ " 已发送"), ?_⟩, ?_, rfl,
    ⟨some (file_name ++ " 上传完成"), ?_⟩, ?_, chunkify_all_short bytes, ?_, ?_,
    by simp [chunkify]⟩
  · rw [send_file_to_all, ← List.cons_append, List.getLast?_concat]
  · simp [send_file_to_all, chunkPayloads, List.filterMap_append,
      List.filterMap_cons, filterMap_chunkMessages]
  · rw [upload_file, ← List.cons_append, List.getLast?_concat]
  · simp [upload_file, chunkPayloadsUp, List.filterMap_append,
      List.filterMap_cons, filterMap_uploadChunkMessages]
  · rw [← List.length_flatten, chunkify_flatten]
  · rw [foldl_append_eq_join, List.nil_append, chunkify_flatten]

theorem removeSession_snd :
    ∀ (l : List (Uuid × α)) (k : Uuid),
      (removeSession l k).2 = lookupSession l k := by
  intro l k
  induction l with
  | nil => rfl
  | cons p rest ih =>
      obtain ⟨k', v⟩ := p
      by_cases h : k' = k <;> simp [removeSession, lookupSession, h, ih]

theorem lookupSession_updateSession :
    ∀ (l : List (Uuid × α)) (k : Uuid) (f : α → α),
      lookupSession (updateSession l k f) k = (lookupSession l k).map f := by
  intro l k f
  induction l with
  | nil => rfl
  | cons p rest ih =>
      obtain ⟨k', v⟩ := p
      by_cases h : k' = k <;> simp [updateSession, lookupSession, h, ih]

/-- Claim C8: a File-Chunk whose `transfer_id` has no registered
session is dropped with a warning: the table is unchanged, the only
effect is the warning, the reader loop goes on to process the
subsequent messages exactly as it would have without the stray chunk,
and the student-side download manager behaves the same way. -/
theorem unknown_chunk_dropped :
    ∀ (source : Option BroadcastSource) (connId : Uuid) (sid : String)
      (uploads : List (Uuid × UploadSession))
      (sessions : List (Uuid × DownloadSession))
      (chunk : FileChunk) (rest : List StudentToTeacher),
      lookupSession uploads chunk.transfer_id = none →
      lookupSession sessions chunk.transfer_id = none →
      handleStudentMessage source connId sid uploads (.fileChunk chunk) =
          (uploads, [.log (.unknownChunk chunk.transfer_id)])
      ∧ runStudentMessages source connId sid uploads (.fileChunk chunk :: rest) =
          ((runStudentMessages source connId sid uploads rest).1,
           .log (.unknownChunk chunk.transfer_id) ::
             (runStudentMessages source connId sid uploads rest).2)
      ∧ handle_chunk sessions chunk =
          (sessions, [.unknownChunk chunk.transfer_id]) := by
  intro source connId sid uploads sessions chunk rest h1 h2
  refine ⟨?_, ?_, ?_⟩
  · simp [handleStudentMessage, h1]
  · simp [runStudentMessages, handleStudentMessage, h1]
  · simp [handle_chunk, h2]

/-- Witness for C8: a chunk for transfer id `"t9"` arriving at an empty
table is dropped with a warning, and the heartbeat after it is still
processed. -/
theorem unknown_chunk_dropped_witness :
    lookupSession ([] : List (Uuid × UploadSession)) "t9" = none
    ∧ runStudentMessages none "c" "s" []
        [.fileChunk ⟨"t9", 0, [1], false⟩, .heartbeat ⟨0⟩] =
        ([], [.log (.unknownChunk "t9")]) := by
  refine ⟨rfl, ?_⟩
  have h := (unknown_chunk_dropped none "c" "s" [] []
    ⟨"t9", 0, [1], false⟩ [.heartbeat ⟨0⟩] rfl rfl).2.1
  exact h.trans (by decide)

/-- Claim C1, counterexample: the teacher's `FileComplete` handler does
**not** log a size mismatch when the student's upload delivered fewer
bytes than the `FileOffer` declared.  With a registered session
expecting 100 bytes of which only 80 arrived, `success = true` makes
the teacher finalize the upload — remove the session, log the ordinary
completion line and send the confirmation back — and its effect list
contains no size-mismatch entry (the handler never reads the session's
`expected` field, which is `#[allow(dead_code)]` in the source). -/
theorem teacher_no_size_check :
    (handleStudentMessage none "conn-1" "student-1"
        [("t1", ⟨⟨['s'], ['f']⟩, 100, 80, List.replicate 80 7⟩)]
        (.fileComplete ⟨"t1", true, none⟩)).1 = []
    ∧ (handleStudentMessage none "conn-1" "student-1"
        [("t1", ⟨⟨['s'], ['f']⟩, 100, 80, List.replicate 80 7⟩)]
        (.fileComplete ⟨"t1", true, none⟩)).2 =
        [.log (.uploadFinished "student-1"),
         .reply (.fileComplete ⟨"t1", true, some "文件上传完成"⟩)]
    ∧ ((handleStudentMessage none "conn-1" "student-1"
        [("t1", ⟨⟨['s'], ['f']⟩, 100, 80, List.replicate 80 7⟩)]
        (.fileComplete ⟨"t1", true, none⟩)).2.all (fun e =>
          match e with
          | .log (.sizeMismatch _ _) => false
          | _ => true)) = true := by
  decide

/-- Claim C1, amended: on a `File-Complete` with `success = true` whose
received byte count differs from the advertised total, the **student**
side logs a size-mismatch warning but still treats the transfer as
finished (session removed, auto-open path surfaced when requested),
and on either side the destination file holds exactly the bytes the
chunks appended; the **teacher** side, by contrast, finalizes a
successful upload without any size comparison — it removes the
session, logs the plain completion line and confirms to the student,
never logging a mismatch (its `expected` field is unused). -/
theorem size_mismatch_handling :
    (∀ (sessions : List (Uuid × DownloadSession))
       (complete : FileTransferComplete) (s : DownloadSession),
      lookupSession sessions complete.transfer_id = some s →
      complete.success = true → s.received ≠ s.expected →
      handle_complete sessions complete =
        ((removeSession sessions complete.transfer_id).1,
         [.sizeMismatch s.expected s.received],
         if s.auto_open then some s.path else none))
    ∧ (∀ (sessions : List (Uuid × DownloadSession)) (chunk : FileChunk)
         (s : DownloadSession),
        lookupSession sessions chunk.transfer_id = some s →
        lookupSession (handle_chunk sessions chunk).1 chunk.transfer_id =
          some { s with
                   content := s.content ++ chunk.bytes,
                   received := s.received + chunk.bytes.length })
    ∧ (∀ (source : Option BroadcastSource) (connId : Uuid) (sid : String)
         (uploads : List (Uuid × UploadSession))
         (done : FileTransferComplete) (s : UploadSession),
        lookupSession uploads done.transfer_id = some s →
        done.success = true →
        handleStudentMessage source connId sid uploads (.fileComplete done) =
          ((removeSession uploads done.transfer_id).1,
           [.log (.uploadFinished sid),
            .reply (.fileComplete ⟨done.transfer_id, true, some "文件上传完成"⟩)]))
    ∧ (∀ (source : Option BroadcastSource) (connId : Uuid) (sid : String)
         (uploads : List (Uuid × UploadSession)) (chunk : FileChunk)
         (s : UploadSession),
        lookupSession uploads chunk.transfer_id = some s →
        lookupSession (handleStudentMessage source connId sid uploads
            (.fileChunk chunk)).1 chunk.transfer_id =
          some { s with
                   content := s.content ++ chunk.bytes,
                   received := s.received + chunk.bytes.length }) := by
  refine ⟨?_, ?_, ?_, ?_⟩
  · intro sessions complete s h hsucc hne
    have h2 : (removeSession sessions complete.transfer_id).2 = some s := by
      rw [removeSession_snd]; exact h
    obtain ⟨rest, hrest⟩ :
        ∃ r, removeSession sessions complete.transfer_id = (r, some s) :=
      ⟨(removeSession sessions complete.transfer_id).1, by rw [← h2]⟩
    simp [handle_complete, hrest, hsucc, hne]
  · intro sessions chunk s h
    simp only [handle_chunk, h]
    rw [lookupSession_updateSession, h]
    rfl
  · intro source connId sid uploads done s h hsucc
    have h2 : (removeSession uploads done.transfer_id).2 = some s := by
      rw [removeSession_snd]; exact h
    obtain ⟨rest, hrest⟩ :
        ∃ r, removeSession uploads done.transfer_id = (r, some s) :=
      ⟨(removeSession uploads done.transfer_id).1, by rw [← h2]⟩
    simp [handleStudentMessage, hrest, hsucc]
  · intro source connId sid uploads chunk s h
    simp only [handleStudentMessage, h]
    rw [lookupSession_updateSession, h]
    rfl

/-- Witness for C1: a student session expecting 100 bytes that got 80
yields the mismatch warning yet finishes and surfaces its path, and
the teacher finalizes the analogous upload without a size check. -/
theorem size_mismatch_handling_witness :
    handle_complete [("t2", ⟨['f'], 100, 80, true, List.replicate 80 7⟩)]
        ⟨"t2", true, none⟩ = ([], [.sizeMismatch 100 80], some ['f'])
    ∧ handleStudentMessage none "conn-1" "student-1"
        [("t1", ⟨⟨['s'], ['f']⟩, 100, 80, List.replicate 80 7⟩)]
        (.fileComplete ⟨"t1", true, none⟩) =
        ([], [.log (.uploadFinished "student-1"),
              .reply (.fileComplete ⟨"t1", true, some "文件上传完成"⟩)]) := by
  constructor
  · have h := size_mismatch_handling.1
      [("t2", ⟨['f'], 100, 80, true, List.replicate 80 7⟩)]
      ⟨"t2", true, none⟩ ⟨['f'], 100, 80, true, List.replicate 80 7⟩
      rfl rfl (by decide)
    exact h.trans (by decide)
  · have h := size_mismatch_handling.2.2.1 none "conn-1" "student-1"
      [("t1", ⟨⟨['s'], ['f']⟩, 100, 80, List.replicate 80 7⟩)]
      ⟨"t1", true, none⟩ ⟨⟨['s'], ['f']⟩, 100, 80, List.replicate 80 7⟩
      rfl rfl
    exact h.trans (by decide)

theorem isMerge_filter_left (p : StartEvent → Bool) :
    ∀ (zs xs ys : List StartEvent), isMerge xs ys zs = true →
      (∀ y ∈ ys, p y = false) → zs.filter p = xs.filter p := by
  intro zs
  induction zs with
  | nil =>
      intro xs ys hm _
      simp only [isMerge, Bool.and_eq_true, List.isEmpty_iff] at hm
      rw [hm.1]
  | cons z zs ih =>
      intro xs ys hm hys
      simp only [isMerge] at hm
      rw [Bool.or_eq_true] at hm
      rcases hm with h | h
      · cases xs with
        | nil => simp at h
        | cons x tailx =>
            simp only [Bool.and_eq_true, beq_iff_eq] at h
            obtain ⟨rfl, hrec⟩ := h
            by_cases hp : p x = true
            · simp only [List.filter_cons, hp, if_true, ih _ _ hrec hys]
            · simp only [List.filter_cons, hp, if_false, ih _ _ hrec hys]
      · cases ys with
        | nil => simp at h
        | cons y taily =>
            simp only [Bool.and_eq_true, beq_iff_eq] at h
            obtain ⟨rfl, hrec⟩ := h
            have hpz : p y = false := hys y (List.mem_cons_self _ _)
            have hys' : ∀ y' ∈ taily, p y' = false := fun y' hy' =>
              hys y' (List.mem_cons_of_mem _ hy')
            simp only [List.filter_cons, hpz, Bool.false_eq_true, if_false]
            exact ih _ _ hrec hys'

theorem isMerge_filter_right (p : StartEvent → Bool) :
    ∀ (zs xs ys : List StartEvent), isMerge xs ys zs = true →
      (∀ x ∈ xs, p x = false) → zs.filter p = ys.filter p := by
  intro zs
  induction zs with
  | nil =>
      intro xs ys hm _
      simp only [isMerge, Bool.and_eq_true, List.isEmpty_iff] at hm
      rw [hm.2]
  | cons z zs ih =>
      intro xs ys hm hxs
      simp only [isMerge] at hm
      rw [Bool.or_eq_true] at hm
      rcases hm with h | h
      · cases xs with
        | nil => simp at h
        | cons x tailx =>
            simp only [Bool.and_eq_true, beq_iff_eq] at h
            obtain ⟨rfl, hrec⟩ := h
            have hpz : p x = false := hxs x (List.mem_cons_self _ _)
            have hxs' : ∀ x' ∈ tailx, p x' = false := fun x' hx' =>
              hxs x' (List.mem_cons_of_mem _ hx')
            simp only [List.filter_cons, hpz, Bool.false_eq_true, if_false]
            exact ih _ _ hrec hxs'
      · cases ys with
        | nil => simp at h
        | cons y taily =>
            simp only [Bool.and_eq_true, beq_iff_eq] at h
            obtain ⟨rfl, hrec⟩ := h
            by_cases hp : p y = true
            · simp only [List.filter_cons, hp, if_true, ih _ _ hrec hxs]
            · simp only [List.filter_cons, hp, if_false, ih _ _ hrec hxs]

theorem dropWhile_ne_eq_cons :
    ∀ (l : List StartEvent) (x : StartEvent), x ∈ l →
      ∃ v, l.dropWhile (fun e => e != x) = x :: v := by
  intro l x
  induction l with
  | nil => intro h; simp at h
  | cons a as ih =>
      intro h
      by_cases hax : a = x
      · subst hax
        exact ⟨as, by simp [List.dropWhile_cons]⟩
      · have hx : x ∈ as := by
          rcases List.mem_cons.mp h with h' | h'
          · exact absurd h'.symm hax
          · exact h'
        obtain ⟨v, hv⟩ := ih hx
        refine ⟨v, ?_⟩
        have hne : (a != x) = true := bne_iff_ne.mpr hax
        rw [List.dropWhile_cons, if_pos hne]
        exact hv

/-- Under `validStartSchedule`, absence of frame completions before the
command broadcast pins the execution down to program order: set the
source, spawn the loop, broadcast the command, then the frames. -/
theorem validStartSchedule_shape :
    ∀ (k : Nat) (tr : List StartEvent), validStartSchedule k tr →
      framesBeforeCommand tr = [] →
      tr = mainTaskEvents ++ captureEvents k := by
  intro k tr hvalid hearly
  obtain ⟨hm, _⟩ := hvalid
  have hcap_frames : ∀ y ∈ captureEvents k, (!isFrameEvent y) = false := by
    intro y hy
    simp only [captureEvents, List.mem_map] at hy
    obtain ⟨i, _, rfl⟩ := hy
    rfl
  have hmain_nonframes : ∀ x ∈ mainTaskEvents, isFrameEvent x = false := by
    intro x hx
    simp only [mainTaskEvents, List.mem_cons, List.not_mem_nil, or_false] at hx
    rcases hx with rfl | rfl | rfl <;> rfl
  have hNF : tr.filter (fun e => !isFrameEvent e) = mainTaskEvents := by
    rw [isMerge_filter_left _ _ _ _ hm hcap_frames]
    rfl
  have hF : tr.filter isFrameEvent = captureEvents k := by
    rw [isMerge_filter_right _ _ _ _ hm hmain_nonframes]
    exact List.filter_eq_self.mpr (fun a ha => by
      simp only [captureEvents, List.mem_map] at ha
      obtain ⟨i, _, rfl⟩ := ha
      rfl)
  have hmem : StartEvent.sendStart ∈ tr := by
    have hmem' : StartEvent.sendStart ∈ tr.filter (fun e => !isFrameEvent e) := by
      rw [hNF]
      simp [mainTaskEvents]
    exact List.mem_of_mem_filter hmem'
  obtain ⟨v, hv⟩ := dropWhile_ne_eq_cons tr .sendStart hmem
  have htr : tr = tr.takeWhile (fun e => e != StartEvent.sendStart) ++
      StartEvent.sendStart :: v := by
    conv_lhs => rw [← List.takeWhile_append_dropWhile
      (p := fun e => e != StartEvent.sendStart) (l := tr)]
    rw [hv]
  have hu_noframe :
      (tr.takeWhile (fun e => e != StartEvent.sendStart)).filter isFrameEvent
        = [] := hearly
  have hu_nf : ∀ e ∈ tr.takeWhile (fun e => e != StartEvent.sendStart),
      (!isFrameEvent e) = true := by
    intro e he
    have := List.filter_eq_nil_iff.mp hu_noframe e he
    simpa using this
  have hu_filter_self :
      (tr.takeWhile (fun e => e != StartEvent.sendStart)).filter
        (fun e => !isFrameEvent e)
        = tr.takeWhile (fun e => e != StartEvent.sendStart) :=
    List.filter_eq_self.mpr hu_nf
  rw [htr, List.filter_append, List.filter_cons, hu_filter_self,
    if_pos (show (!isFrameEvent StartEvent.sendStart) = true from rfl)] at hNF
  rw [htr, List.filter_append, List.filter_cons, hu_noframe,
    if_neg (show ¬ isFrameEvent StartEvent.sendStart = true from by decide),
    List.nil_append] at hF
  generalize hgen : tr.takeWhile (fun e => e != StartEvent.sendStart) = u
    at htr hNF
  rcases u with _ | ⟨e1, _ | ⟨e2, _ | ⟨e3, u2⟩⟩⟩
  · simp [mainTaskEvents] at hNF
  · simp [mainTaskEvents] at hNF
  · simp only [mainTaskEvents, List.cons_append, List.nil_append,
      List.cons.injEq, true_and, and_true] at hNF
    obtain ⟨rfl, rfl, hvNF⟩ := hNF
    have hv_frames : ∀ e ∈ v, isFrameEvent e = true := by
      intro e he
      have := List.filter_eq_nil_iff.mp hvNF e he
      simpa using this
    have hv_self : v.filter isFrameEvent = v := List.filter_eq_self.mpr hv_frames
    rw [hv_self] at hF
    rw [htr, hF]
    rfl
  · simp [mainTaskEvents] at hNF

theorem received_append :
    ∀ (l1 l2 : List StartEvent),
      received (l1 ++ l2) = received l1 ++ received l2 := by
  intro l1 l2
  induction l1 with
  | nil => rfl
  | cons e rest ih => cases e <;> simp [received, ih]

theorem received_frameDone_map :
    ∀ ids : List Nat,
      received (ids.map .frameDone) = ids.map .videoFrame := by
  intro ids
  induction ids with
  | nil => rfl
  | cons i rest ih => simp [received, ih]

theorem received_captureEvents (k : Nat) :
    received (captureEvents k) =
      (List.range k).map (fun i => .videoFrame (i + 1)) := by
  have h : captureEvents k =
      ((List.range k).map (fun i => i + 1)).map .frameDone := by
    rw [captureEvents, List.map_map]
    rfl
  rw [h, received_frameDone_map, List.map_map]
  rfl

/-- Claim C3, counterexample: the `Start{Teacher, Fullscreen}` command
is broadcast only after the capture loop has been spawned, so there is
a valid interleaving — spawn, first tick completes, command broadcast —
in which a student's FIFO queue holds a Video frame before the Start
command.  The code does not order the command before the frames. -/
theorem video_can_precede_start_command :
    ¬ ∀ (k : Nat) (tr : List StartEvent), validStartSchedule k tr →
        startBeforeVideos (received tr) = true := by
  intro hall
  have h := hall 1 badStartSchedule (by constructor <;> decide)
  exact absurd h (by decide)

/-- Claim C3, amended: in every execution of `start (fullscreen)` in
which no capture tick completes before the `Start` command is broadcast
(the code does not enforce this — see the counterexample — but any
frame produced after the broadcast is enqueued after it, per-recipient
FIFO), every connected student receives `Start{Teacher, Fullscreen}`
first and then the Video frames in capture order; and the frames the
capture loop broadcasts carry strictly increasing `frame_id`s and
`source = Teacher`. -/
theorem start_command_before_frames :
    (∀ (k : Nat) (tr : List StartEvent), validStartSchedule k tr →
      framesBeforeCommand tr = [] →
      received tr =
        .startCommand :: (List.range k).map (fun i => .videoFrame (i + 1)))
    ∧ (∀ (c n : Nat) (ts w h : Nat → Nat) (jpeg : Nat → List Nat)
         (mode : BroadcastMode),
        ((captureLoopFrames c n ts w h jpeg mode).map
            VideoFrame.frame_id).Pairwise (· < ·)
        ∧ (captureLoopFrames c n ts w h jpeg mode).all
            (fun f => f.source == .teacher) = true) := by
  constructor
  · intro k tr hv he
    rw [validStartSchedule_shape k tr hv he, received_append,
      received_captureEvents]
    rfl
  · intro c n ts w h jpeg mode
    constructor
    · rw [captureLoopFrames, List.map_map]
      have hcomp : (VideoFrame.frame_id ∘ fun i =>
          capture_frame (c + i + 1) (ts i) (w i) (h i) mode (jpeg i)) =
          fun i => c + i + 1 := rfl
      rw [hcomp]
      exact List.Pairwise.map _ (fun a b hab => by omega)
        (List.pairwise_lt_range n)
    · simp [captureLoopFrames, capture_frame]

/-- Witness for C3: with two frames completing after the broadcast, a
student's queue is exactly `Start` then Video 1 then Video 2. -/
theorem start_command_before_frames_witness :
    validStartSchedule 2
        [.setSource, .spawnCapture, .sendStart, .frameDone 1, .frameDone 2]
    ∧ received
        [.setSource, .spawnCapture, .sendStart, .frameDone 1, .frameDone 2] =
        [.startCommand, .videoFrame 1, .videoFrame 2] := by
  refine ⟨⟨by decide, by decide⟩, ?_⟩
  have h := start_command_before_frames.1 2
    [.setSource, .spawnCapture, .sendStart, .frameDone 1, .frameDone 2]
    ⟨by decide, by decide⟩ (by decide)
  exact h.trans (by decide)

end Broadcast
